import Mathlib

/-
  Shallow embedding of the IDE-FreezeGuard collector core:
  event schema validation (src/collector/models.py), the metric registry
  (src/collector/metrics.py and src/vscode-freezeguard/collector/metrics.py),
  and the ingestion pipeline with its ring buffer (src/collector/app.py).

  Floating-point values of the source are modelled as exact rationals (Rat):
  all operations the claims mention (division by 1000, clamping with max,
  sign comparisons) are exact at the inputs involved.
-/

namespace FreezeGuard

/-- The `thread` enumeration of the unified collector:
`Literal["EDT", "BGT", "MAIN", "WORKER"]` in src/collector/models.py. -/
inductive Thread where
  | EDT
  | BGT
  | MAIN
  | WORKER
deriving DecidableEq, Repr

/-- `parseThread` maps a raw thread string to the enumeration, rejecting
anything outside the `Literal` set (pydantic `Literal` validation). -/
def parseThread : String → Option Thread
  | "EDT" => some .EDT
  | "BGT" => some .BGT
  | "MAIN" => some .MAIN
  | "WORKER" => some .WORKER
  | _ => none

/-- `ActionEvent` from src/collector/models.py: the validated event.
`duration_ms` and `edt_longest_stall_ms` are floats in the source, modelled
as Rat; `ts` is a datetime used only for display, modelled as its string. -/
structure ActionEvent where
  action : String
  duration_ms : Rat
  thread : Thread
  heap_delta_bytes : Int := 0
  edt_stalls : Int := 0
  edt_longest_stall_ms : Rat := 0
  ts : String
deriving DecidableEq, Repr

/-- A parsed JSON document mapped onto the `ActionEvent` field shape before
pydantic validation: each field is present (with its coerced typed value) or
absent. -/
structure RawEvent where
  action : Option String := none
  duration_ms : Option Rat := none
  thread : Option String := none
  heap_delta_bytes : Option Int := none
  edt_stalls : Option Int := none
  edt_longest_stall_ms : Option Rat := none
  ts : Option String := none
deriving DecidableEq, Repr

/-- Validation failure kinds raised by `ActionEvent(**data)`:
a required field is missing, or `thread` is outside the `Literal` set. -/
inductive SchemaError where
  | missingField (field : String)
  | invalidThread (value : String)
deriving DecidableEq, Repr

/-- Pydantic validation of `ActionEvent(**data)` (src/collector/models.py):
`action`, `duration_ms`, `thread`, `ts` are required; `thread` must belong to
the enumerated set; the remaining fields take their declared defaults. -/
def validate (r : RawEvent) : Except SchemaError ActionEvent :=
  match r.action with
  | none => .error (.missingField "action")
  | some a =>
    match r.duration_ms with
    | none => .error (.missingField "duration_ms")
    | some d =>
      match r.thread with
      | none => .error (.missingField "thread")
      | some tStr =>
        match parseThread tStr with
        | none => .error (.invalidThread tStr)
        | some t =>
          match r.ts with
          | none => .error (.missingField "ts")
          | some ts =>
            .ok { action := a
                  duration_ms := d
                  thread := t
                  heap_delta_bytes := r.heap_delta_bytes.getD 0
                  edt_stalls := r.edt_stalls.getD 0
                  edt_longest_stall_ms := r.edt_longest_stall_ms.getD 0
                  ts := ts }

/-- The metric registry state (src/collector/metrics.py): each metric keyed
by its label set; histograms hold their list of observations, counters their
running value. -/
structure Registry where
  action_duration_seconds : String → Thread → List Rat
  edt_stall_duration_seconds : String → List Rat
  edt_stalls_total : String → Int
  events_total : String → Thread → Nat
  heap_delta_bytes : String → Thread → List Int

/-- Histogram observation on an (action, thread)-labelled series. -/
def observe2 (f : String → Thread → List Rat) (a : String) (t : Thread) (v : Rat) :
    String → Thread → List Rat :=
  fun a' t' => if a' = a ∧ t' = t then f a' t' ++ [v] else f a' t'

/-- Histogram observation on an action-labelled series. -/
def observe1 (f : String → List Rat) (a : String) (v : Rat) : String → List Rat :=
  fun a' => if a' = a then f a' ++ [v] else f a'

/-- Counter increment by `v` on an action-labelled series. -/
def inc1 (f : String → Int) (a : String) (v : Int) : String → Int :=
  fun a' => if a' = a then f a' + v else f a'

/-- Counter increment by one on an (action, thread)-labelled series. -/
def inc2 (f : String → Thread → Nat) (a : String) (t : Thread) :
    String → Thread → Nat :=
  fun a' t' => if a' = a ∧ t' = t then f a' t' + 1 else f a' t'

/-- Integer-valued histogram observation on an (action, thread)-labelled
series (the heap-delta histogram observes raw signed byte counts). -/
def observeInt2 (f : String → Thread → List Int) (a : String) (t : Thread) (v : Int) :
    String → Thread → List Int :=
  fun a' t' => if a' = a ∧ t' = t then f a' t' ++ [v] else f a' t'

/-- The registry at process start: no series has any value. -/
def emptyRegistry : Registry where
  action_duration_seconds := fun _ _ => []
  edt_stall_duration_seconds := fun _ => []
  edt_stalls_total := fun _ => 0
  events_total := fun _ _ => 0
  heap_delta_bytes := fun _ _ => []

/-- Append to a bounded deque of capacity `cap` (`deque(maxlen=cap)`):
the new element goes to the right, and the leftmost elements are evicted
if the capacity is exceeded. -/
def ringAppend (cap : Nat) (r : List α) (x : α) : List α :=
  let r' := r ++ [x]
  if cap < r'.length then r'.drop (r'.length - cap) else r'

/-- The collector's process-wide mutable state: the metric registry and
`RING: Deque[Tuple[datetime, ActionEvent]] = deque(maxlen=256)`. -/
structure CollectorState where
  reg : Registry
  ring : List (String × ActionEvent)

/-- The state at process start: empty registry, empty ring. -/
def initState : CollectorState where
  reg := emptyRegistry
  ring := []

/-- The metrics-and-ring section of `ingest` (src/collector/app.py lines
37-51), run once validation has produced an `ActionEvent`:
observe duration unconditionally, observe the clamped stall duration only if
positive, increment the stall counter only if `edt_stalls > 0`, increment
`events_total` unconditionally, observe the raw heap delta only if non-zero,
then append `(ev.ts, ev)` to the ring. -/
def ingestEvent (st : CollectorState) (ev : ActionEvent) : CollectorState :=
  let secs := ev.duration_ms / 1000
  let stall_secs := max 0 ev.edt_longest_stall_ms / 1000
  let reg1 := { st.reg with
    action_duration_seconds :=
      observe2 st.reg.action_duration_seconds ev.action ev.thread secs }
  let reg2 := if 0 < stall_secs then
      { reg1 with edt_stall_duration_seconds :=
          observe1 reg1.edt_stall_duration_seconds ev.action stall_secs }
    else reg1
  let reg3 := if 0 < ev.edt_stalls then
      { reg2 with edt_stalls_total := inc1 reg2.edt_stalls_total ev.action ev.edt_stalls }
    else reg2
  let reg4 := { reg3 with events_total := inc2 reg3.events_total ev.action ev.thread }
  let reg5 := if ev.heap_delta_bytes ≠ 0 then
      { reg4 with heap_delta_bytes :=
          observeInt2 reg4.heap_delta_bytes ev.action ev.thread ev.heap_delta_bytes }
    else reg4
  { reg := reg5, ring := ringAppend 256 st.ring (ev.ts, ev) }

/-- One inbound request body, as the pipeline sees it: either the body failed
JSON parsing (`request.json()` raised), or it parsed to a document mapped onto
the `ActionEvent` field shape. -/
inductive IngestInput where
  | badJson (raw : String)
  | parsed (r : RawEvent)
deriving DecidableEq, Repr

/-- The result of one `ingest` call: the 400 parse-error response echoing the
raw body, the 422 schema-error response, or `{ok: true}`. -/
inductive IngestResult where
  | parseError (raw : String)
  | schemaError (e : SchemaError)
  | ok
deriving DecidableEq, Repr

/-- The `ingest` endpoint (src/collector/app.py): parse failure returns 400
and touches nothing; validation failure returns 422 and touches nothing; a
validated event updates the metrics and the ring and returns `{ok: true}`. -/
def ingest (st : CollectorState) (inp : IngestInput) : CollectorState × IngestResult :=
  match inp with
  | .badJson raw => (st, .parseError raw)
  | .parsed r =>
    match validate r with
    | .error e => (st, .schemaError e)
    | .ok ev => (ingestEvent st ev, .ok)

/-- Metric kinds of prometheus_client used by the registries. -/
inductive MetricKind where
  | counter
  | histogram
deriving DecidableEq, Repr

/-- The declaration of one named metric: name, kind, label schema and
(for histograms) bucket upper bounds. -/
structure MetricDecl where
  name : String
  kind : MetricKind
  labels : List String
  buckets : List Rat
deriving DecidableEq, Repr

/-- The unified registry's declarations, in order (src/collector/metrics.py). -/
def collectorMetrics : List MetricDecl :=
  [ { name := "action_duration_seconds", kind := .histogram
      labels := ["action", "thread"]
      buckets := [0.010, 0.025, 0.050, 0.100, 0.250, 0.500, 1.0, 2.0, 5.0, 10.0] }
  , { name := "edt_stall_duration_seconds", kind := .histogram
      labels := ["action"]
      buckets := [0.100, 0.250, 0.500, 1.0, 2.0, 5.0] }
  , { name := "edt_stalls_total", kind := .counter
      labels := ["action"], buckets := [] }
  , { name := "events_total", kind := .counter
      labels := ["action", "thread"], buckets := [] }
  , { name := "heap_delta_bytes", kind := .histogram
      labels := ["action", "thread"]
      buckets := [-50000000, -10000000, -1000000, -100000, -10000, 0,
                  10000, 100000, 1000000, 10000000, 50000000] } ]

/-- The VS-Code-only registry's declarations, in order
(src/vscode-freezeguard/collector/metrics.py). -/
def vscodeMetrics : List MetricDecl :=
  [ { name := "vscode_action_duration_seconds", kind := .histogram
      labels := ["action", "thread"]
      buckets := [0.010, 0.025, 0.050, 0.100, 0.250, 0.500, 1.0, 2.0, 5.0, 10.0] }
  , { name := "vscode_main_stall_duration_seconds", kind := .histogram
      labels := ["action"]
      buckets := [0.100, 0.250, 0.500, 1.0, 2.0, 5.0] }
  , { name := "vscode_main_stalls_total", kind := .counter
      labels := ["action"], buckets := [] }
  , { name := "vscode_events_total", kind := .counter
      labels := ["action", "thread"], buckets := [] } ]

/-- The thread enumeration of the unified variant (src/collector/models.py). -/
def collectorThreads : List String := ["EDT", "BGT", "MAIN", "WORKER"]

/-- The thread enumeration of the VS-Code-only variant
(src/vscode-freezeguard/collector/models.py). -/
def vscodeThreads : List String := ["MAIN", "WORKER"]

/-- Modelled from the spec: the debug view's state. The `/debug` endpoint
itself is absent from src/ (only its test, tests/test_endpoints.py
`TestDebugEndpoint`, is present); the spec defines it as the structured
listing of retained ring entries plus a total-lifetime-count counter,
"count of all events ever appended, not just those still resident". -/
structure DebugState where
  ring : List (String × ActionEvent)
  total_ingested : Nat

/-- Modelled from the spec: appending one accepted event for the debug view
appends to the capacity-256 ring and increments the lifetime count
unconditionally. -/
def debugAppend (st : DebugState) (e : String × ActionEvent) : DebugState where
  ring := ringAppend 256 st.ring e
  total_ingested := st.total_ingested + 1

/-- Appending to the bounded deque always yields the capacity-bounded suffix
of the extended list. -/
theorem ringAppend_eq_drop (cap : Nat) (r : List α) (x : α) :
    ringAppend cap r x = (r ++ [x]).drop ((r ++ [x]).length - cap) := by
  show (if cap < (r ++ [x]).length then
      (r ++ [x]).drop ((r ++ [x]).length - cap) else r ++ [x]) = _
  split
  · rfl
  · rename_i h
    rw [Nat.sub_eq_zero_of_le (Nat.le_of_not_lt h), List.drop_zero]

/-- Folding `ringAppend` over a list of new elements, starting from a ring
within capacity, keeps exactly the capacity-bounded suffix of everything. -/
theorem foldl_ringAppend (cap : Nat) :
    ∀ (xs r : List α), r.length ≤ cap →
      xs.foldl (ringAppend cap) r = (r ++ xs).drop ((r ++ xs).length - cap) := by
  intro xs
  induction xs with
  | nil =>
    intro r h
    simp [Nat.sub_eq_zero_of_le h]
  | cons x xs ih =>
    intro r h
    have hlen : (ringAppend cap r x).length ≤ cap := by
      rw [ringAppend_eq_drop, List.length_drop]
      omega
    rw [List.foldl_cons, ih _ hlen, ringAppend_eq_drop]
    have hd : (r ++ [x]).length - cap ≤ (r ++ [x]).length := Nat.sub_le _ _
    rw [← List.drop_append_of_le_length hd, List.drop_drop]
    have hassoc : (r ++ [x]) ++ xs = r ++ x :: xs := by simp
    rw [hassoc]
    congr 1
    have hb : (r ++ [x]).length = r.length + 1 := by simp
    simp only [List.length_append, List.length_drop, List.length_cons,
      List.length_singleton, hb]
    omega

/-- The ring component of the collector state after a fold of `ingestEvent`
is the fold of `ringAppend` over the events' ring entries. -/
theorem foldl_ingestEvent_ring (evs : List ActionEvent) :
    ∀ st : CollectorState,
      (evs.foldl ingestEvent st).ring =
        (evs.map fun e => (e.ts, e)).foldl (ringAppend 256) st.ring := by
  induction evs with
  | nil => intro st; rfl
  | cons e evs ih =>
    intro st
    rw [List.map_cons, List.foldl_cons, List.foldl_cons, ih]
    rfl

/-- One accepted event bumps `events_total` by one at exactly its own
(action, thread) label and leaves every other series of that metric alone. -/
theorem ingestEvent_events_total (st : CollectorState) (ev : ActionEvent)
    (a : String) (t : Thread) :
    (ingestEvent st ev).reg.events_total a t =
      if a = ev.action ∧ t = ev.thread then st.reg.events_total a t + 1
      else st.reg.events_total a t := by
  simp only [ingestEvent, apply_ite Registry.events_total]
  split_ifs with h1 h2 h3 <;> simp_all [inc2]

/-- One accepted event appends exactly one observation `duration_ms / 1000`
to `action_duration_seconds` at its own label, unconditionally. -/
theorem ingestEvent_action_duration (st : CollectorState) (ev : ActionEvent)
    (a : String) (t : Thread) :
    (ingestEvent st ev).reg.action_duration_seconds a t =
      if a = ev.action ∧ t = ev.thread then
        st.reg.action_duration_seconds a t ++ [ev.duration_ms / 1000]
      else st.reg.action_duration_seconds a t := by
  simp only [ingestEvent, apply_ite Registry.action_duration_seconds]
  split_ifs <;> simp_all [observe2]

/-- The strict-positivity test the code runs on `stall_secs` is equivalent to
strict positivity of the clamped millisecond value. -/
theorem stall_secs_pos_iff (e : Rat) : (0 < max 0 e / 1000) = (0 < max 0 e) := by
  apply propext
  constructor
  · intro h
    by_contra hn
    push_neg at hn
    have : max 0 e / 1000 ≤ 0 := div_nonpos_of_nonpos_of_nonneg hn (by norm_num)
    linarith
  · intro h
    positivity

/-- One accepted event appends the clamped stall observation to
`edt_stall_duration_seconds` at its action label exactly when the clamped
value is strictly positive, and otherwise leaves the metric untouched. -/
theorem ingestEvent_stall_duration (st : CollectorState) (ev : ActionEvent)
    (a : String) :
    (ingestEvent st ev).reg.edt_stall_duration_seconds a =
      if 0 < max 0 ev.edt_longest_stall_ms ∧ a = ev.action then
        st.reg.edt_stall_duration_seconds a ++ [max 0 ev.edt_longest_stall_ms / 1000]
      else st.reg.edt_stall_duration_seconds a := by
  simp only [ingestEvent, stall_secs_pos_iff,
    apply_ite Registry.edt_stall_duration_seconds]
  split_ifs <;> simp_all [observe1]

/-- One accepted event adds `edt_stalls` to `edt_stalls_total` at its action
label exactly when `edt_stalls > 0`, and otherwise leaves the counter
untouched. -/
theorem ingestEvent_stalls_total (st : CollectorState) (ev : ActionEvent)
    (a : String) :
    (ingestEvent st ev).reg.edt_stalls_total a =
      if 0 < ev.edt_stalls ∧ a = ev.action then
        st.reg.edt_stalls_total a + ev.edt_stalls
      else st.reg.edt_stalls_total a := by
  simp only [ingestEvent, apply_ite Registry.edt_stalls_total]
  split_ifs <;> simp_all [inc1]

/-- One accepted event appends the raw signed heap delta to
`heap_delta_bytes` at its own label exactly when the delta is non-zero, and
otherwise leaves the histogram untouched. -/
theorem ingestEvent_heap_delta (st : CollectorState) (ev : ActionEvent)
    (a : String) (t : Thread) :
    (ingestEvent st ev).reg.heap_delta_bytes a t =
      if ev.heap_delta_bytes ≠ 0 ∧ a = ev.action ∧ t = ev.thread then
        st.reg.heap_delta_bytes a t ++ [ev.heap_delta_bytes]
      else st.reg.heap_delta_bytes a t := by
  simp only [ingestEvent, apply_ite Registry.heap_delta_bytes]
  split_ifs <;> simp_all [observeInt2]

/-- The raw document of Scenario A of the spec. -/
def rawScenarioA : RawEvent where
  action := some "X"
  duration_ms := some 850
  thread := some "EDT"
  heap_delta_bytes := some 3072
  edt_stalls := some 4
  edt_longest_stall_ms := some 275
  ts := some "2024-01-01T12:00:00Z"

/-- The validated event of Scenario A of the spec. -/
def scenarioA : ActionEvent where
  action := "X"
  duration_ms := 850
  thread := .EDT
  heap_delta_bytes := 3072
  edt_stalls := 4
  edt_longest_stall_ms := 275
  ts := "2024-01-01T12:00:00Z"

/-- A payload whose `thread` value is outside the enumerated set
(Scenario B's `thread: "INVALID"`). -/
def rawInvalidThread : RawEvent where
  action := some "X"
  duration_ms := some 100
  thread := some "INVALID"
  ts := some "2024-01-01T12:00:00Z"

/-- C1: every failing ingest call (parse failure or schema-validation
failure) returns the corresponding typed error and performs no mutation:
the whole collector state — every metric series and the ring buffer — is
returned exactly as it was. -/
theorem C1_rejected_ingest_is_noop :
    (∀ (st : CollectorState) (raw : String),
        ingest st (.badJson raw) = (st, .parseError raw)) ∧
    (∀ (st : CollectorState) (r : RawEvent) (e : SchemaError),
        validate r = .error e → ingest st (.parsed r) = (st, .schemaError e)) := by
  refine ⟨fun st raw => rfl, fun st r e h => ?_⟩
  simp [ingest, h]

/-- Witness for C1: a malformed body and Scenario B's invalid-thread payload
both leave the initial state untouched and return their typed errors. -/
theorem C1_rejected_ingest_is_noop_witness :
    ingest initState (.badJson "not json") = (initState, .parseError "not json") ∧
    ingest initState (.parsed rawInvalidThread) =
      (initState, .schemaError (.invalidThread "INVALID")) :=
  ⟨C1_rejected_ingest_is_noop.1 initState "not json",
   C1_rejected_ingest_is_noop.2 initState rawInvalidThread
     (.invalidThread "INVALID") rfl⟩

/-- C2: starting from the empty state, after any sequence of successful
ingests the ring holds exactly the capacity-bounded suffix of all ingested
entries — never more than 256, exactly `min (number ingested) 256` entries,
and they are the most recent ones with the oldest evicted first. -/
theorem C2_ring_bounded_most_recent (evs : List ActionEvent) :
    (evs.foldl ingestEvent initState).ring =
      (evs.map fun e => (e.ts, e)).drop (evs.length - 256) ∧
    (evs.foldl ingestEvent initState).ring.length = min evs.length 256 ∧
    (evs.foldl ingestEvent initState).ring.length ≤ 256 := by
  have h := foldl_ingestEvent_ring evs initState
  have h0 : initState.ring = ([] : List (String × ActionEvent)) := rfl
  rw [h0, foldl_ringAppend 256 _ [] (by simp), List.nil_append] at h
  have hlen : (evs.map fun e => (e.ts, e)).length = evs.length := by simp
  rw [hlen] at h
  refine ⟨h, ?_, ?_⟩ <;> rw [h, List.length_drop, hlen] <;> omega

/-- C3: every accepted event performs exactly one `events_total` increment
and exactly one `action_duration_seconds` observation of
`duration_ms / 1000`, both unconditionally and only at the event's own
(action, thread) label; Scenario A ingested into a fresh registry yields
`events_total` 1, `edt_stalls_total` 4 and the single duration observation
0.85. -/
theorem C3_accepted_event_exactly_one_count_and_observation :
    (∀ (st : CollectorState) (ev : ActionEvent) (a : String) (t : Thread),
        (ingestEvent st ev).reg.events_total a t =
          if a = ev.action ∧ t = ev.thread then st.reg.events_total a t + 1
          else st.reg.events_total a t) ∧
    (∀ (st : CollectorState) (ev : ActionEvent) (a : String) (t : Thread),
        (ingestEvent st ev).reg.action_duration_seconds a t =
          if a = ev.action ∧ t = ev.thread then
            st.reg.action_duration_seconds a t ++ [ev.duration_ms / 1000]
          else st.reg.action_duration_seconds a t) ∧
    validate rawScenarioA = .ok scenarioA ∧
    (ingest initState (.parsed rawScenarioA)).2 = .ok ∧
    (ingestEvent initState scenarioA).reg.events_total "X" Thread.EDT = 1 ∧
    (ingestEvent initState scenarioA).reg.edt_stalls_total "X" = 4 ∧
    (ingestEvent initState scenarioA).reg.action_duration_seconds "X" Thread.EDT
      = [0.85] := by
  refine ⟨ingestEvent_events_total, ingestEvent_action_duration, rfl,
    by decide, ?_, ?_, ?_⟩
  · rw [ingestEvent_events_total]
    simp [scenarioA, initState, emptyRegistry]
  · rw [ingestEvent_stalls_total]
    norm_num [scenarioA, initState, emptyRegistry]
  · rw [ingestEvent_action_duration]
    norm_num [scenarioA, initState, emptyRegistry]

/-- Folding debug appends accumulates the lifetime count by exactly the
number of events appended, independent of eviction. -/
theorem foldl_debugAppend_total (es : List (String × ActionEvent)) :
    ∀ st : DebugState,
      (es.foldl debugAppend st).total_ingested = st.total_ingested + es.length := by
  induction es with
  | nil => intro st; simp
  | cons e es ih =>
    intro st
    rw [List.foldl_cons, ih]
    simp only [debugAppend, List.length_cons]
    omega

/-- The ring component of the debug state after a fold of `debugAppend` is
the fold of `ringAppend` over the appended entries. -/
theorem foldl_debugAppend_ring (es : List (String × ActionEvent)) :
    ∀ st : DebugState,
      (es.foldl debugAppend st).ring = es.foldl (ringAppend 256) st.ring := by
  induction es with
  | nil => intro st; rfl
  | cons e es ih =>
    intro st
    rw [List.foldl_cons, List.foldl_cons, ih]
    rfl

/-- C4: the debug view's total-lifetime count equals the number of events
ever appended — independent of eviction — while the ring retains only the
capacity-bounded suffix; in particular after 300 appends the count is 300
and the ring retains exactly the last 256 entries. -/
theorem C4_debug_lifetime_count (entries : List (String × ActionEvent)) :
    (entries.foldl debugAppend ⟨[], 0⟩).total_ingested = entries.length ∧
    (entries.foldl debugAppend ⟨[], 0⟩).ring =
      entries.drop (entries.length - 256) ∧
    (entries.length = 300 →
      (entries.foldl debugAppend ⟨[], 0⟩).total_ingested = 300 ∧
      (entries.foldl debugAppend ⟨[], 0⟩).ring.length = 256) := by
  have htot : (entries.foldl debugAppend ⟨[], 0⟩).total_ingested = entries.length := by
    simp [foldl_debugAppend_total]
  have hring := foldl_debugAppend_ring entries ⟨[], 0⟩
  rw [foldl_ringAppend 256 _ [] (by simp), List.nil_append] at hring
  refine ⟨by omega, hring, fun h300 => ⟨by omega, ?_⟩⟩
  rw [hring, List.length_drop, h300]

/-- Witness for C4: 300 concrete appends yield a lifetime count of 300 while
the ring retains exactly 256 entries. -/
theorem C4_debug_lifetime_count_witness :
    ((List.replicate 300 (("2024-01-01T12:00:00Z", scenarioA) : String × ActionEvent)).foldl
        debugAppend ⟨[], 0⟩).total_ingested = 300 ∧
    ((List.replicate 300 (("2024-01-01T12:00:00Z", scenarioA) : String × ActionEvent)).foldl
        debugAppend ⟨[], 0⟩).ring.length = 256 :=
  (C4_debug_lifetime_count _).2.2 (by rw [List.length_replicate])

/-- A payload whose `action` is the empty string and whose other required
fields are valid. -/
def rawEmptyAction : RawEvent where
  action := some ""
  duration_ms := some 100
  thread := some "EDT"
  ts := some "2024-01-01T12:00:00Z"

/-- The event the validator produces for `rawEmptyAction`. -/
def evEmptyAction : ActionEvent where
  action := ""
  duration_ms := 100
  thread := .EDT
  ts := "2024-01-01T12:00:00Z"

/-- Counterexample to C5: a payload whose `action` field is the empty string
is accepted by validation — `action: str` enforces no non-emptiness — and the
ingest call succeeds. -/
theorem C5_counterexample_empty_action_accepted :
    rawEmptyAction.action = some "" ∧
    validate rawEmptyAction = .ok evEmptyAction ∧
    evEmptyAction.action = "" ∧
    (ingest initState (.parsed rawEmptyAction)).2 = .ok :=
  ⟨rfl, rfl, rfl, by decide⟩

/-- C5 as amended: validation places no constraint at all on the content of
`action` — acceptance is independent of which string the field holds — and in
particular the empty string is accepted, so a validated event's action may be
empty. -/
theorem C5_amended_action_content_unconstrained :
    (∀ (r : RawEvent) (s s' : String),
        (validate { r with action := some s }).isOk =
          (validate { r with action := some s' }).isOk) ∧
    validate rawEmptyAction = .ok evEmptyAction := by
  refine ⟨fun r s s' => ?_, rfl⟩
  cases hd : r.duration_ms with
  | none => simp [validate, hd]
  | some d =>
    cases ht : r.thread with
    | none => simp [validate, hd, ht]
    | some tS =>
      cases hp : parseThread tS with
      | none => simp [validate, hd, ht, hp]
      | some t =>
        cases hts : r.ts with
        | none => simp [validate, hd, ht, hp, hts]
        | some ts => simp [validate, hd, ht, hp, hts, Except.isOk, Except.toBool]

/-- Counterexample to C6: the two registry variants do not expose the same
five metrics — the unified registry declares five, but the VS-Code registry
declares only four, with no heap-delta histogram among them. -/
theorem C6_counterexample_vscode_lacks_heap_metric :
    collectorMetrics.map MetricDecl.name =
      ["action_duration_seconds", "edt_stall_duration_seconds",
       "edt_stalls_total", "events_total", "heap_delta_bytes"] ∧
    vscodeMetrics.map MetricDecl.name =
      ["vscode_action_duration_seconds", "vscode_main_stall_duration_seconds",
       "vscode_main_stalls_total", "vscode_events_total"] ∧
    collectorMetrics.length = 5 ∧
    vscodeMetrics.length = 4 ∧
    (collectorMetrics.map MetricDecl.kind).count .histogram = 3 ∧
    (vscodeMetrics.map MetricDecl.kind).count .histogram = 2 := by
  refine ⟨rfl, rfl, rfl, rfl, by decide, by decide⟩

/-- C6 as amended: the VS-Code variant exposes only four metrics; those four
correspond one-to-one, in order, to the unified registry's first four — same
kinds, same label schemas, same bucket boundaries, differing only in metric
names — and its thread enumeration is the two-value subset of the unified
one; the heap-delta histogram exists only in the unified variant. -/
theorem C6_amended_four_metric_correspondence :
    vscodeMetrics.map (fun m => (m.kind, m.labels, m.buckets)) =
      (collectorMetrics.take 4).map (fun m => (m.kind, m.labels, m.buckets)) ∧
    collectorMetrics.length = 5 ∧
    vscodeMetrics.length = 4 ∧
    vscodeThreads = ["MAIN", "WORKER"] ∧
    vscodeThreads.all (fun t => collectorThreads.contains t) = true := by
  refine ⟨rfl, rfl, rfl, rfl, by decide⟩

/-- An event whose `edt_longest_stall_ms` is negative (clamped to zero by
the pipeline, hence never observed). -/
def evNegStall : ActionEvent where
  action := "Y"
  duration_ms := 10
  thread := .MAIN
  edt_longest_stall_ms := -5
  ts := "2024-01-01T12:00:00Z"

/-- C7: per accepted event, `edt_stall_duration_seconds[action]` receives the
single observation `max(0, edt_longest_stall_ms) / 1000` exactly when the
clamped value is strictly positive; any event with
`edt_longest_stall_ms ≤ 0` leaves the metric entirely untouched — no
zero-valued observation is recorded. -/
theorem C7_stall_observed_iff_clamped_positive :
    (∀ (st : CollectorState) (ev : ActionEvent) (a : String),
        (ingestEvent st ev).reg.edt_stall_duration_seconds a =
          if 0 < max 0 ev.edt_longest_stall_ms ∧ a = ev.action then
            st.reg.edt_stall_duration_seconds a ++
              [max 0 ev.edt_longest_stall_ms / 1000]
          else st.reg.edt_stall_duration_seconds a) ∧
    (∀ (st : CollectorState) (ev : ActionEvent) (a : String),
        ev.edt_longest_stall_ms ≤ 0 →
          (ingestEvent st ev).reg.edt_stall_duration_seconds a =
            st.reg.edt_stall_duration_seconds a) := by
  refine ⟨ingestEvent_stall_duration, fun st ev a h => ?_⟩
  rw [ingestEvent_stall_duration]
  simp [max_eq_left h]

/-- Witness for C7: the concrete event with stall -5 ms records no
observation at its own action label. -/
theorem C7_stall_observed_iff_clamped_positive_witness :
    evNegStall.edt_longest_stall_ms ≤ 0 ∧
    (ingestEvent initState evNegStall).reg.edt_stall_duration_seconds "Y" =
      initState.reg.edt_stall_duration_seconds "Y" :=
  ⟨by norm_num [evNegStall],
   C7_stall_observed_iff_clamped_positive.2 initState evNegStall "Y"
     (by norm_num [evNegStall])⟩

/-- An event whose `edt_stalls` is zero (the declared default). -/
def evZeroStalls : ActionEvent where
  action := "Z"
  duration_ms := 10
  thread := .WORKER
  ts := "2024-01-01T12:00:00Z"

/-- C8: per accepted event, `edt_stalls_total[action]` is incremented by
`edt_stalls` exactly when `edt_stalls > 0`; an event with `edt_stalls = 0`
leaves the counter unchanged at every label. -/
theorem C8_stalls_counter_incremented_iff_positive :
    (∀ (st : CollectorState) (ev : ActionEvent) (a : String),
        (ingestEvent st ev).reg.edt_stalls_total a =
          if 0 < ev.edt_stalls ∧ a = ev.action then
            st.reg.edt_stalls_total a + ev.edt_stalls
          else st.reg.edt_stalls_total a) ∧
    (∀ (st : CollectorState) (ev : ActionEvent) (a : String),
        ev.edt_stalls = 0 →
          (ingestEvent st ev).reg.edt_stalls_total a =
            st.reg.edt_stalls_total a) := by
  refine ⟨ingestEvent_stalls_total, fun st ev a h => ?_⟩
  rw [ingestEvent_stalls_total]
  simp [h]

/-- Witness for C8: the concrete zero-stall event leaves the counter at its
own action label unchanged. -/
theorem C8_stalls_counter_incremented_iff_positive_witness :
    evZeroStalls.edt_stalls = 0 ∧
    (ingestEvent initState evZeroStalls).reg.edt_stalls_total "Z" =
      initState.reg.edt_stalls_total "Z" :=
  ⟨rfl,
   C8_stalls_counter_incremented_iff_positive.2 initState evZeroStalls "Z" rfl⟩

/-- Scenario E's first event: zero heap delta. -/
def scenarioE0 : ActionEvent where
  action := "A"
  duration_ms := 1
  thread := .EDT
  heap_delta_bytes := 0
  ts := "2024-01-01T12:00:00Z"

/-- Scenario E's second event: same action and thread, non-zero heap delta. -/
def scenarioE1 : ActionEvent where
  action := "A"
  duration_ms := 2
  thread := .EDT
  heap_delta_bytes := 3072
  ts := "2024-01-01T12:00:01Z"

/-- C9: per accepted event, `heap_delta_bytes[action, thread]` receives
exactly one observation of the raw signed delta exactly when the delta is
non-zero; Scenario E's pair of same-labelled events — one zero delta, one
non-zero — yields exactly one recorded observation. -/
theorem C9_heap_delta_observed_iff_nonzero :
    (∀ (st : CollectorState) (ev : ActionEvent) (a : String) (t : Thread),
        (ingestEvent st ev).reg.heap_delta_bytes a t =
          if ev.heap_delta_bytes ≠ 0 ∧ a = ev.action ∧ t = ev.thread then
            st.reg.heap_delta_bytes a t ++ [ev.heap_delta_bytes]
          else st.reg.heap_delta_bytes a t) ∧
    (ingestEvent (ingestEvent initState scenarioE0) scenarioE1).reg.heap_delta_bytes
        "A" Thread.EDT = [3072] ∧
    ((ingestEvent (ingestEvent initState scenarioE0) scenarioE1).reg.heap_delta_bytes
        "A" Thread.EDT).length = 1 := by
  have h2 : (ingestEvent (ingestEvent initState scenarioE0) scenarioE1).reg.heap_delta_bytes
      "A" Thread.EDT = [3072] := by
    rw [ingestEvent_heap_delta, ingestEvent_heap_delta]
    norm_num [scenarioE0, scenarioE1, initState, emptyRegistry]
  exact ⟨ingestEvent_heap_delta, h2, by rw [h2]; rfl⟩

/-- A payload carrying a negative `edt_stalls`, which the schema accepts. -/
def rawNegStalls : RawEvent where
  action := some "W"
  duration_ms := some 10
  thread := some "BGT"
  edt_stalls := some (-3)
  ts := some "2024-01-01T12:00:00Z"

/-- The validated event for `rawNegStalls`. -/
def evNegStalls : ActionEvent where
  action := "W"
  duration_ms := 10
  thread := .BGT
  edt_stalls := -3
  ts := "2024-01-01T12:00:00Z"

/-- A single `ingest` call never decreases `edt_stalls_total` at any label:
failures touch nothing, and an accepted event adds `edt_stalls` only when it
is strictly positive. -/
theorem ingest_stalls_total_mono (st : CollectorState) (inp : IngestInput)
    (a : String) :
    st.reg.edt_stalls_total a ≤ ((ingest st inp).1).reg.edt_stalls_total a := by
  cases inp with
  | badJson raw => exact le_refl _
  | parsed r =>
    cases hv : validate r with
    | error e => simp [ingest, hv]
    | ok ev =>
      simp only [ingest, hv]
      rw [ingestEvent_stalls_total]
      split_ifs with h
      · have := h.1
        omega
      · exact le_refl _

/-- C10: `edt_stalls_total` is monotone non-decreasing at every action label
across any sequence of ingest calls, even though the schema accepts negative
`edt_stalls` values — a concrete payload with `edt_stalls = -3` validates
successfully — because the increment is applied only when `edt_stalls > 0`,
so a zero or negative value leaves the counter unchanged. -/
theorem C10_stalls_total_monotone :
    (∀ (st : CollectorState) (inps : List IngestInput) (a : String),
        st.reg.edt_stalls_total a ≤
          ((inps.foldl (fun s i => (ingest s i).1) st).reg.edt_stalls_total a)) ∧
    validate rawNegStalls = .ok evNegStalls ∧
    evNegStalls.edt_stalls = -3 ∧
    (∀ (st : CollectorState) (ev : ActionEvent) (a : String),
        ev.edt_stalls ≤ 0 →
          (ingestEvent st ev).reg.edt_stalls_total a =
            st.reg.edt_stalls_total a) := by
  refine ⟨?_, rfl, rfl, fun st ev a h => ?_⟩
  · intro st inps
    induction inps generalizing st with
    | nil => intro a; exact le_refl _
    | cons i inps ih =>
      intro a
      exact le_trans (ingest_stalls_total_mono st i a) (ih _ a)
  · rw [ingestEvent_stalls_total]
    have : ¬ (0 < ev.edt_stalls ∧ a = ev.action) := by
      rintro ⟨h1, -⟩
      omega
    simp [this]

/-- Witness for C10: ingesting the accepted negative-stalls event from the
initial state leaves its own counter unchanged. -/
theorem C10_stalls_total_monotone_witness :
    evNegStalls.edt_stalls ≤ 0 ∧
    (ingestEvent initState evNegStalls).reg.edt_stalls_total "W" =
      initState.reg.edt_stalls_total "W" :=
  ⟨by norm_num [evNegStalls],
   C10_stalls_total_monotone.2.2.2 initState evNegStalls "W"
     (by norm_num [evNegStalls])⟩

end FreezeGuard
